import Mathlib

/-!
Verification of the reverse-shell session multiplexer (shell/session.rs,
shell/terminal.rs, shell/renderer.rs) against its specification.

The Rust code is shallowly embedded: pure fragments become Lean functions,
the per-session I/O task becomes an explicit step relation over an event
trace, and the session registry becomes a state record transformed by the
registry operations.  Strings are treated at the ASCII level (Rust's
`str::len` counts bytes and `char::is_alphanumeric` is Unicode-aware; for
the ASCII inputs relevant here both agree with the character-level
embedding used below).
-/

namespace Cap

/-! ### String helpers mirroring the Rust `str` operations used by the code -/

/-- Does `pat` occur at the front of `s`?  (Helper for substring search.) -/
def subAt : List Char → List Char → Bool
  | _, [] => true
  | [], _ :: _ => false
  | a :: as, b :: bs => (a == b) && subAt as bs

/-- Does `pat` occur anywhere inside `s`?  (Helper for substring search.) -/
def hasSub : List Char → List Char → Bool
  | [], pat => pat.isEmpty
  | c :: rest, pat => subAt (c :: rest) pat || hasSub rest pat

/-- Embeds Rust `str::contains(pat)` (substring containment). -/
def strContains (s pat : String) : Bool :=
  hasSub s.data pat.data

/-- Split a character list on a separator, keeping empty segments
    (the behaviour of Rust `str::split(sep)`). -/
def splitOnChar (sep : Char) : List Char → List (List Char)
  | [] => [[]]
  | c :: rest =>
    if c = sep then [] :: splitOnChar sep rest
    else
      match splitOnChar sep rest with
      | [] => [[c]]
      | l :: ls => (c :: l) :: ls

/-- Strip one trailing carriage return, as Rust `str::lines` does. -/
def dropCr (l : List Char) : List Char :=
  match l.getLast? with
  | some '\r' => l.dropLast
  | _ => l

/-- Embeds Rust `str::lines()`: split on newline, drop a final empty
    segment produced by a trailing newline, strip trailing `\r`. -/
def rustLines (s : String) : List String :=
  let parts := splitOnChar '\n' s.data
  let parts := if parts.getLast? = some ([] : List Char) then parts.dropLast else parts
  parts.map (fun l => String.mk (dropCr l))

/-- ASCII whitespace test used by the `trim` embedding. -/
def isWsChar (c : Char) : Bool :=
  c = ' ' || c = '\t' || c = '\n' || c = '\r'

/-- Embeds Rust `str::trim()` for ASCII whitespace. -/
def strTrim (s : String) : String :=
  String.mk (((s.data.dropWhile isWsChar).reverse.dropWhile isWsChar).reverse)

/-- Embeds Rust `str::len()` (byte length; equals character count on ASCII). -/
def strLen (s : String) : Nat :=
  s.data.length

/-- Embeds Rust `char::is_alphanumeric` restricted to ASCII. -/
def rustIsAlphanumeric (c : Char) : Bool :=
  c.isAlpha || c.isDigit

/-- Embeds Rust `String::ends_with('\n')`. -/
def endsWithNewline (s : String) : Bool :=
  s.data.getLast? = some '\n'

/-! ### Data model (shell/session.rs) -/

/-- `ShellState` from shell/session.rs. -/
inductive ShellState where
  | Active
  | Background
  | Terminated
  deriving DecidableEq, Repr

/-- `PrivilegeLevel` from shell/session.rs. -/
inductive PrivilegeLevel where
  | Root
  | User
  | Unknown
  deriving DecidableEq, Repr

/-- `ShellMetadata` from shell/session.rs.  Timestamps are abstracted to
    `Nat` ticks (the code stores `DateTime<Utc>` values it never computes
    with, beyond formatting). -/
structure ShellMetadata where
  remote_addr : String
  hostname : Option String
  username : Option String
  os_type : Option String
  privilege : PrivilegeLevel
  connected_at : Nat
  last_seen : Nat
  operator_notes : Option String
  deriving DecidableEq, Repr

/-- `ShellSession` from shell/session.rs.  The socket is abstracted to the
    `socket_shutdown` flag (`stream.take()` followed by `shutdown()` in
    `terminate`); the mpsc channels are modelled separately by the I/O
    event trace below. -/
structure ShellSession where
  id : String
  name : String
  state : ShellState
  metadata : ShellMetadata
  output_buffer : List String
  reconnect_attempts : Nat
  max_reconnect_attempts : Nat
  socket_shutdown : Bool
  deriving DecidableEq, Repr

/-- `ShellSession::new`: fresh session in `Active` state with empty
    metadata, zero reconnect attempts and a budget of 3. -/
def ShellSession.new (id : String) (remote_addr : String) (now : Nat) : ShellSession :=
  { id := id
    name := "shell-" ++ String.mk (id.data.take 8)
    state := ShellState.Active
    metadata :=
      { remote_addr := remote_addr
        hostname := none
        username := none
        os_type := none
        privilege := PrivilegeLevel.Unknown
        connected_at := now
        last_seen := now
        operator_notes := none }
    output_buffer := []
    reconnect_attempts := 0
    max_reconnect_attempts := 3
    socket_shutdown := false }

/-- `ShellSession::terminate`: set state to `Terminated` and shut the
    socket down (the only place the socket is ever shut down). -/
def ShellSession.terminate (s : ShellSession) : ShellSession :=
  { s with state := ShellState.Terminated, socket_shutdown := true }

/-- `ShellSession::handle_disconnect`: background the session, then either
    consume one unit of the reconnect budget or, when the budget is
    exhausted, mark the session terminated. -/
def ShellSession.handle_disconnect (s : ShellSession) : ShellSession :=
  let s := { s with state := ShellState.Background }
  let attempts := s.reconnect_attempts
  if attempts < s.max_reconnect_attempts then
    { s with reconnect_attempts := attempts + 1 }
  else
    { s with state := ShellState.Terminated }

/-- `ShellSession::update_metadata`: apply the mutation and refresh
    `last_seen`. -/
def ShellSession.update_metadata (s : ShellSession) (f : ShellMetadata → ShellMetadata)
    (now : Nat) : ShellSession :=
  let meta := f s.metadata
  { s with metadata := { meta with last_seen := now } }

/-- `ShellSession::send_command`: the bytes actually enqueued for the
    remote shell — the command with a newline appended unless it already
    ends with one. -/
def send_command (command : String) : String :=
  if endsWithNewline command then command else command ++ "\n"

/-! ### Stabilizer output parsing (`ShellSessionManager::stabilize_shell`)

The metadata-update closure passed to `update_metadata` at the end of
`stabilize_shell` performs four successive field updates on the parsed
probe output; they are embedded as four composed functions. -/

/-- OS detection: `Linux` / `Darwin` / `Windows`-or-`Microsoft` markers,
    checked in that order; anything else leaves `os_type` untouched. -/
def parseOs (output : String) (meta : ShellMetadata) : ShellMetadata :=
  if strContains output "Linux" then { meta with os_type := some "Linux" }
  else if strContains output "Darwin" then { meta with os_type := some "macOS" }
  else if strContains output "Windows" || strContains output "Microsoft" then
    { meta with os_type := some "Windows" }
  else meta

/-- The per-line condition of the hostname extraction loop. -/
def hostnameLineOk (line : String) : Bool :=
  !strContains line "hostname" && !strContains line "COMPUTERNAME" &&
  decide (strLen line > 2) && decide (strLen line < 50) &&
  !strContains line "@" && !strContains line "/" && !strContains line "\\" &&
  line.data.all (fun c => rustIsAlphanumeric c || c = '-' || c = '_' || c = '.')

/-- Hostname extraction: the first line passing `hostnameLineOk` is
    trimmed and stored. -/
def parseHostname (output : String) (meta : ShellMetadata) : ShellMetadata :=
  match (rustLines output).find? hostnameLineOk with
  | some line => { meta with hostname := some (strTrim line) }
  | none => meta

/-- First branch of the username loop: a `DOMAIN\user` style line. -/
def usernameWindowsLineOk (line : String) : Bool :=
  strContains line "\\" && !strContains line "whoami"

/-- Second branch of the username loop: a short alphanumeric line. -/
def usernamePlainLineOk (line : String) : Bool :=
  !strContains line "whoami" && !strContains line "USERNAME" &&
  decide (strLen line > 2) && decide (strLen line < 30) &&
  line.data.all (fun c => rustIsAlphanumeric c || c = '-' || c = '_')

/-- Username extraction: the first line matching either branch wins; a
    `DOMAIN\user` line contributes its last backslash-separated
    component. -/
def parseUsername (output : String) (meta : ShellMetadata) : ShellMetadata :=
  match (rustLines output).find?
      (fun line => usernameWindowsLineOk line || usernamePlainLineOk line) with
  | some line =>
    if usernameWindowsLineOk line then
      { meta with
          username := some (strTrim (String.mk ((splitOnChar '\\' line.data).getLastD []))) }
    else
      { meta with username := some (strTrim line) }
  | none => meta

/-- Privilege detection from prompt markers. -/
def parsePrivilege (output : String) (meta : ShellMetadata) : ShellMetadata :=
  if strContains output "root@" || strContains output "# " ||
      strContains output "Administrator" || strContains output "SYSTEM" then
    { meta with privilege := PrivilegeLevel.Root }
  else if strContains output "$ " || strContains output "C:\\" ||
      strContains output "PS >" then
    { meta with privilege := PrivilegeLevel.User }
  else meta

/-- The whole metadata-update closure of `stabilize_shell`. -/
def stabilizeUpdateMetadata (output : String) (meta : ShellMetadata) : ShellMetadata :=
  parsePrivilege output (parseUsername output (parseHostname output (parseOs output meta)))

/-- `ShellSessionManager::stabilize_shell`, observable part: join the
    accumulated output buffer, parse it into the metadata (refreshing
    `last_seen`), then clear the output buffer.  The probe commands it
    sends and the fixed delays between them only influence what the remote
    shell put into the output buffer, which is a parameter here. -/
def stabilize_shell (session : ShellSession) (now : Nat) : ShellSession :=
  let output := String.join session.output_buffer
  let session := session.update_metadata (stabilizeUpdateMetadata output) now
  { session with output_buffer := [] }

/-! ### Session registry (`ShellSessionManager`) -/

/-- One record of the persisted snapshot file (the `SessionInfo` struct
    serialized by `save_sessions_to_file`).  `connected_at` keeps the
    abstract timestamp the RFC 3339 rendering is generated from. -/
structure SessionInfo where
  id : String
  remote_addr : String
  state : String
  connected_at : Nat
  hostname : Option String
  username : Option String
  privilege : String
  deriving DecidableEq, Repr

/-- The field names under which each snapshot record is serialized
    (serde derives them from the `SessionInfo` struct fields). -/
def sessionInfoKeys : List String :=
  ["id", "remote_addr", "state", "connected_at", "hostname", "username", "privilege"]

/-- State rendering used by `save_sessions_to_file`. -/
def stateStr : ShellState → String
  | ShellState.Active => "Active"
  | ShellState.Background => "Background"
  | ShellState.Terminated => "Terminated"

/-- Privilege rendering used by `save_sessions_to_file`. -/
def privilegeStr : PrivilegeLevel → String
  | PrivilegeLevel.Root => "Root"
  | PrivilegeLevel.User => "User"
  | PrivilegeLevel.Unknown => "Unknown"

/-- The snapshot record derived from one registry entry. -/
def sessionInfoOf (id : String) (s : ShellSession) : SessionInfo :=
  { id := id
    remote_addr := s.metadata.remote_addr
    state := stateStr s.state
    connected_at := s.metadata.connected_at
    hostname := s.metadata.hostname
    username := s.metadata.username
    privilege := privilegeStr s.metadata.privilege }

/-- `ShellSessionManager`: the concurrent map becomes an association
    list, the `active_session` pointer stays an `Option`, and
    `saved_file` holds the last written contents of
    `shell_sessions.json` (`none` before the first write). -/
structure ShellSessionManager where
  sessions : List (String × ShellSession)
  active_session : Option String
  saved_file : Option (List SessionInfo)
  deriving DecidableEq, Repr

/-- `ShellSessionManager::new`. -/
def ShellSessionManager.new : ShellSessionManager :=
  { sessions := [], active_session := none, saved_file := none }

/-- Map lookup on the association list (DashMap `get`). -/
def lookupIn : List (String × ShellSession) → String → Option ShellSession
  | [], _ => none
  | p :: rest, id => if p.1 = id then some p.2 else lookupIn rest id

/-- `ShellSessionManager::get_session`. -/
def lookupSession (m : ShellSessionManager) (id : String) : Option ShellSession :=
  lookupIn m.sessions id

/-- Does the map contain the key? (DashMap `contains_key`). -/
def containsKey : List (String × ShellSession) → String → Bool
  | [], _ => false
  | p :: rest, id => if p.1 = id then true else containsKey rest id

/-- Replace the value stored under an existing key. -/
def replaceEntry : List (String × ShellSession) → String → ShellSession →
    List (String × ShellSession)
  | [], _, _ => []
  | p :: rest, id, s =>
    if p.1 = id then (id, s) :: replaceEntry rest id s
    else p :: replaceEntry rest id s

/-- DashMap `insert`: replace an existing entry or append a new one. -/
def insertSession (sessions : List (String × ShellSession)) (id : String)
    (s : ShellSession) : List (String × ShellSession) :=
  if containsKey sessions id then replaceEntry sessions id s
  else sessions ++ [(id, s)]

/-- In-place mutation of one entry (state writes through the `Arc`). -/
def updateSession : List (String × ShellSession) → String →
    (ShellSession → ShellSession) → List (String × ShellSession)
  | [], _, _ => []
  | p :: rest, id, f =>
    if p.1 = id then (p.1, f p.2) :: updateSession rest id f
    else p :: updateSession rest id f

/-- DashMap `remove`. -/
def removeSession : List (String × ShellSession) → String →
    List (String × ShellSession)
  | [], _ => []
  | p :: rest, id =>
    if p.1 = id then removeSession rest id else p :: removeSession rest id

/-- The record list `save_sessions_to_file` would serialize right now. -/
def currentRecords (m : ShellSessionManager) : List SessionInfo :=
  m.sessions.map (fun p => sessionInfoOf p.1 p.2)

/-- `ShellSessionManager::save_sessions_to_file`: rewrite the snapshot
    file from the current map contents. -/
def save_sessions_to_file (m : ShellSessionManager) : ShellSessionManager :=
  { m with saved_file := some (currentRecords m) }

/-- `ShellSessionManager::list_sessions`. -/
def list_sessions (m : ShellSessionManager) : List (String × ShellState) :=
  m.sessions.map (fun p => (p.1, p.2.state))

/-- `ShellSessionManager::register_session`: create the session, run the
    stabilizer (awaited before returning), insert it, make it foreground
    only when nothing is foreground, rewrite the snapshot file and return
    the new id.  `probe_output` is what the remote shell wrote into the
    output buffer while the stabilizer's probes ran. -/
def register_session (m : ShellSessionManager) (session_id : String)
    (remote_addr : String) (now : Nat) (probe_output : List String) :
    ShellSessionManager × String :=
  let session := ShellSession.new session_id remote_addr now
  let session := { session with output_buffer := session.output_buffer ++ probe_output }
  let session := stabilize_shell session now
  let sessions := insertSession m.sessions session_id session
  let active := if m.active_session = none then some session_id else m.active_session
  let m := save_sessions_to_file
    { m with sessions := sessions, active_session := active }
  (m, session_id)

/-- `ShellSessionManager::background_session`: set the session's state to
    `Background` and clear the foreground pointer when it pointed here.
    Does not rewrite the snapshot file. -/
def background_session (m : ShellSessionManager) (id : String) :
    Except String Unit × ShellSessionManager :=
  match lookupSession m id with
  | some _ =>
    let sessions := updateSession m.sessions id
      (fun s => { s with state := ShellState.Background })
    let active := if m.active_session = some id then none else m.active_session
    (Except.ok (), { m with sessions := sessions, active_session := active })
  | none => (Except.error ("Session not found: " ++ id), m)

/-- `ShellSessionManager::foreground_session`: set the session's state to
    `Active` and point the foreground pointer at it.  Does not rewrite
    the snapshot file. -/
def foreground_session (m : ShellSessionManager) (id : String) :
    Except String Unit × ShellSessionManager :=
  match lookupSession m id with
  | some _ =>
    let sessions := updateSession m.sessions id
      (fun s => { s with state := ShellState.Active })
    (Except.ok (), { m with sessions := sessions, active_session := some id })
  | none => (Except.error ("Session not found: " ++ id), m)

/-- `ShellSessionManager::terminate_session`: remove the entry, run
    `ShellSession::terminate` on it, clear the foreground pointer when it
    pointed here, rewrite the snapshot file; unknown ids get the
    "not found" error and the state is untouched. -/
def terminate_session (m : ShellSessionManager) (id : String) :
    Except String Unit × ShellSessionManager :=
  match lookupSession m id with
  | some _ =>
    let sessions := removeSession m.sessions id
    let active := if m.active_session = some id then none else m.active_session
    let m := save_sessions_to_file
      { m with sessions := sessions, active_session := active }
    (Except.ok (), m)
  | none => (Except.error ("Session not found: " ++ id), m)

/-- The entries the cleanup sweep keeps: every session whose state is not
    `Terminated`, in order. -/
def dropTerminated : List (String × ShellSession) → List (String × ShellSession)
  | [] => []
  | p :: rest =>
    if p.2.state = ShellState.Terminated then dropTerminated rest
    else p :: dropTerminated rest

/-- Whether the cleanup sweep finds anything to remove (`has_removed`). -/
def anyTerminated : List (String × ShellSession) → Bool
  | [] => false
  | p :: rest =>
    if p.2.state = ShellState.Terminated then true else anyTerminated rest

/-- `ShellSessionManager::cleanup_terminated_sessions`: drop every entry
    whose state is `Terminated`; rewrite the snapshot file only when at
    least one entry was dropped.  The foreground pointer is not
    touched. -/
def cleanup_terminated_sessions (m : ShellSessionManager) : ShellSessionManager :=
  let has_removed := anyTerminated m.sessions
  let sessions := dropTerminated m.sessions
  let m := { m with sessions := sessions }
  if has_removed then save_sessions_to_file m else m

/-- `ShellSession::terminate` invoked directly on a registered session's
    `Arc` (bypassing the registry): mutates the stored session, leaves
    the registry's pointer and map membership alone. -/
def direct_terminate (m : ShellSessionManager) (id : String) : ShellSessionManager :=
  { m with sessions := updateSession m.sessions id ShellSession.terminate }

/-- One registry-level operation, for stating trace invariants. -/
inductive MgrOp where
  | register (id remote_addr : String) (now : Nat) (probe_output : List String)
  | background (id : String)
  | foreground (id : String)
  | terminate (id : String)
  | cleanup
  | directTerminate (id : String)
  deriving DecidableEq, Repr

/-- Whether an operation is a direct `ShellSession::terminate` (not a
    registry method). -/
def MgrOp.isDirectTerminate : MgrOp → Bool
  | MgrOp.directTerminate _ => true
  | _ => false

/-- Apply one operation to the registry state. -/
def applyOp (m : ShellSessionManager) : MgrOp → ShellSessionManager
  | MgrOp.register id addr now probe => (register_session m id addr now probe).1
  | MgrOp.background id => (background_session m id).2
  | MgrOp.foreground id => (foreground_session m id).2
  | MgrOp.terminate id => (terminate_session m id).2
  | MgrOp.cleanup => cleanup_terminated_sessions m
  | MgrOp.directTerminate id => direct_terminate m id

/-- Does this lookup result name a session whose state is not
    `Terminated`? -/
def stateOkB : Option ShellSession → Bool
  | some s => if s.state = ShellState.Terminated then false else true
  | none => false

/-- The foreground invariant, decidably: when the foreground pointer is
    set it names a mapped session whose state is not `Terminated`. -/
def foregroundInvB (m : ShellSessionManager) : Bool :=
  match m.active_session with
  | none => true
  | some id => stateOkB (lookupSession m id)

/-! ### Attached-session keyboard handling (shell/terminal.rs)

`InteractiveTerminal::handle_key_event` receives crossterm key events:
the terminal event layer has already parsed raw input bytes, so a
multi-byte escape sequence such as ESC `[` A arrives as the single `Up`
event, and a lone ESC byte arrives as the `Esc` event. -/

/-- The crossterm key codes the handler matches on. -/
inductive KeyCode where
  | char (c : Char)
  | enter
  | backspace
  | tab
  | up
  | down
  | left
  | right
  | esc
  | other
  deriving DecidableEq, Repr

/-- A key event: code plus whether the CONTROL modifier is held. -/
structure KeyEvent where
  code : KeyCode
  ctrl : Bool
  deriving DecidableEq, Repr

/-- The observable effect of `handle_key_event` on the active session:
    bytes enqueued via `send_command`, the Ctrl+D exit, the Esc
    backgrounding, or nothing. -/
inductive KeyAction where
  | sendBytes (payload : String)
  | detachExit
  | backgroundSession
  | noAction
  deriving DecidableEq, Repr

/-- `InteractiveTerminal::handle_key_event`, active-session branch:
    returns the action and the updated local `input` line buffer.  Every
    `send_command` argument is the code's literal payload; `send_command`
    itself appends the trailing newline. -/
def handle_key_event (key : KeyEvent) (input : String) : KeyAction × String :=
  match key.code with
  | KeyCode.char c =>
    if key.ctrl then
      if c = 'd' then (KeyAction.detachExit, input)
      else if c = 'c' then (KeyAction.sendBytes (send_command "\x03"), "")
      else if c = 'z' then (KeyAction.sendBytes (send_command "\x1a"), input)
      else
        (KeyAction.sendBytes
          (send_command (String.mk [Char.ofNat ((c.toNat % 256) &&& 0x1f)])), input)
    else
      (KeyAction.sendBytes (send_command (String.mk [c])), input ++ String.mk [c])
  | KeyCode.enter => (KeyAction.sendBytes (send_command (input ++ "\n")), "")
  | KeyCode.backspace =>
    let input := if input.data.isEmpty then input else String.mk input.data.dropLast
    (KeyAction.sendBytes (send_command "\x08"), input)
  | KeyCode.tab => (KeyAction.sendBytes (send_command "\t"), input)
  | KeyCode.up => (KeyAction.sendBytes (send_command "\x1b[A"), input)
  | KeyCode.down => (KeyAction.sendBytes (send_command "\x1b[B"), input)
  | KeyCode.left => (KeyAction.sendBytes (send_command "\x1b[D"), input)
  | KeyCode.right => (KeyAction.sendBytes (send_command "\x1b[C"), input)
  | KeyCode.esc => (KeyAction.backgroundSession, input)
  | KeyCode.other => (KeyAction.noAction, input)

/-! ### Per-session I/O task (`ShellSession::handle_io`)

The select loop is driven by an explicit event trace: socket reads
(positive, zero or failing), commands arriving on the input channel
(with their write/flush outcome), and an external `terminate()` call
observed by the bottom-of-loop state check. -/

/-- Outcome of writing one command to the socket. -/
inductive WriteOutcome where
  | ok
  | writeErr (msg : String)
  | flushErr (msg : String)
  deriving DecidableEq, Repr

/-- One event of the I/O loop. -/
inductive IoEvent where
  | readOk (data : String)
  | readZero
  | readErr (msg : String)
  | command (cmd : String) (outcome : WriteOutcome)
  | terminateCall
  deriving DecidableEq, Repr

/-- The state the I/O task shares with the rest of the system: the
    session state, the output buffer, the output channel's queue, the
    bytes written to the socket, and the socket-shutdown flag. -/
structure IoState where
  state : ShellState
  output_buffer : List String
  out_queue : List String
  written : List String
  socket_shutdown : Bool
  deriving DecidableEq, Repr

/-- The synthetic line pushed on a zero-byte read. -/
def connectionLostNotif : String :=
  "\n[Connection lost - session backgrounded]\n"

/-- The synthetic line pushed on a read error. -/
def networkErrorNotif (e : String) : String :=
  "\n[Network error: " ++ e ++ " - session backgrounded]\n"

/-- The synthetic line pushed on a write error. -/
def writeErrorNotif (e : String) : String :=
  "\n[Write error: " ++ e ++ " - session backgrounded]\n"

/-- The synthetic line pushed on a flush error. -/
def flushErrorNotif (e : String) : String :=
  "\n[Flush error: " ++ e ++ " - session backgrounded]\n"

/-- How the loop exited. -/
inductive IoExit where
  | disconnected (notif : String)
  | externalTerminate
  deriving DecidableEq, Repr

/-- One iteration of the `handle_io` select loop, returning the new
    shared state and the exit taken, if any.  A `terminateCall` event
    stands for `ShellSession::terminate` running concurrently; the loop
    notices it at the bottom-of-loop `Terminated` check and breaks. -/
def ioStep (st : IoState) : IoEvent → IoState × Option IoExit
  | IoEvent.readZero =>
    let st := { st with
      state := ShellState.Background
      out_queue := st.out_queue ++ [connectionLostNotif] }
    (st, some (IoExit.disconnected connectionLostNotif))
  | IoEvent.readErr e =>
    let st := { st with
      state := ShellState.Background
      out_queue := st.out_queue ++ [networkErrorNotif e] }
    (st, some (IoExit.disconnected (networkErrorNotif e)))
  | IoEvent.readOk data =>
    let st := { st with
      output_buffer := st.output_buffer ++ [data]
      out_queue := st.out_queue ++ [data] }
    if st.state = ShellState.Terminated then (st, some IoExit.externalTerminate)
    else (st, none)
  | IoEvent.command cmd outcome =>
    match outcome with
    | WriteOutcome.ok =>
      let st := { st with written := st.written ++ [cmd] }
      if st.state = ShellState.Terminated then (st, some IoExit.externalTerminate)
      else (st, none)
    | WriteOutcome.writeErr e =>
      let st := { st with
        state := ShellState.Background
        out_queue := st.out_queue ++ [writeErrorNotif e] }
      (st, some (IoExit.disconnected (writeErrorNotif e)))
    | WriteOutcome.flushErr e =>
      let st := { st with
        written := st.written ++ [cmd]
        state := ShellState.Background
        out_queue := st.out_queue ++ [flushErrorNotif e] }
      (st, some (IoExit.disconnected (flushErrorNotif e)))
  | IoEvent.terminateCall =>
    let st := { st with state := ShellState.Terminated, socket_shutdown := true }
    (st, some IoExit.externalTerminate)

/-- Run the I/O loop over an event trace until it exits (or the trace
    runs out while the loop is still live). -/
def ioRun (st : IoState) : List IoEvent → IoState × Option IoExit
  | [] => (st, none)
  | ev :: rest =>
    match ioStep st ev with
    | (st', some ex) => (st', some ex)
    | (st', none) => ioRun st' rest

/-! ### Menu-hold output buffer (shell/renderer.rs `OutputBuffer`) -/

/-- `OutputBuffer`: bounded FIFO of output chunks held while the menu
    owns the screen. -/
structure OutputBuffer where
  buffer : List String
  max_size : Nat
  deriving DecidableEq, Repr

/-- `OutputBuffer::new`. -/
def OutputBuffer.new (max_size : Nat) : OutputBuffer :=
  { buffer := [], max_size := max_size }

/-- `OutputBuffer::push`: when full, drop the oldest entry first.  (For
    `max_size = 0` the Rust code would panic on `remove(0)` of an empty
    vector; the claims only concern `max_size ≥ 1`.) -/
def OutputBuffer.push (b : OutputBuffer) (output : String) : OutputBuffer :=
  let buf := if b.max_size ≤ b.buffer.length then b.buffer.drop 1 else b.buffer
  { b with buffer := buf ++ [output] }

/-- `OutputBuffer::flush_to_stdout`: the chunks printed, in order, and
    the emptied buffer. -/
def OutputBuffer.flush_to_stdout (b : OutputBuffer) : List String × OutputBuffer :=
  (b.buffer, { b with buffer := [] })

/-- The session a registration stores in the map: freshly created,
    its output buffer filled by the remote shell during stabilization,
    then stabilized. -/
def registeredSession (id addr : String) (now : Nat) (probe : List String) :
    ShellSession :=
  stabilize_shell
    { ShellSession.new id addr now with
        output_buffer := (ShellSession.new id addr now).output_buffer ++ probe } now

/-- The registry state used by the C6 witness: one freshly registered
    session `"s1"`. -/
def c6Manager : ShellSessionManager :=
  (register_session ShellSessionManager.new "s1" "10.0.0.5:4444" 0 []).1

/-- The registry state used by the C8 counterexample: one freshly
    registered session `"s1"` (the registration wrote the snapshot). -/
def c8Manager0 : ShellSessionManager :=
  (register_session ShellSessionManager.new "s1" "10.0.0.5:4444" 0 []).1

/-- The C8 counterexample state after backgrounding `"s1"`. -/
def c8Manager1 : ShellSessionManager :=
  (background_session c8Manager0 "s1").2

/-- Captured output whose lines include a `Linux version ...` line, the
    line `myhost` and the line `root@myhost:~# `, but with another
    hostname-shaped line first. -/
def c9BadOutput : String :=
  "abc\nLinux version 5.15.0-generic\nmyhost\nroot@myhost:~# "

/-- A session holding exactly the spec's stabilization test vector in
    its output buffer. -/
def c9VectorSession : ShellSession :=
  { ShellSession.new "cafebabe" "10.0.0.5:4444" 0 with
      output_buffer :=
        ["Linux version 5.15.0-generic\n", "myhost\n", "root@myhost:~# "] }

/-! ## Helper lemmas -/

theorem stabilize_shell_state (s : ShellSession) (now : Nat) :
    (stabilize_shell s now).state = s.state := rfl

theorem registeredSession_state (id addr : String) (now : Nat) (probe : List String) :
    (registeredSession id addr now probe).state = ShellState.Active := rfl

theorem register_session_eq (m : ShellSessionManager) (id addr : String) (now : Nat)
    (probe : List String) :
    (register_session m id addr now probe).1 =
      save_sessions_to_file
        { m with
            sessions := insertSession m.sessions id (registeredSession id addr now probe)
            active_session :=
              if m.active_session = none then some id else m.active_session } := rfl

theorem save_active (m : ShellSessionManager) :
    (save_sessions_to_file m).active_session = m.active_session := rfl

theorem save_lookup (m : ShellSessionManager) (id : String) :
    lookupSession (save_sessions_to_file m) id = lookupSession m id := rfl

theorem save_sessions (m : ShellSessionManager) :
    (save_sessions_to_file m).sessions = m.sessions := rfl

theorem lookupIn_replaceEntry_self (l : List (String × ShellSession)) (id : String)
    (s : ShellSession) (hc : containsKey l id = true) :
    lookupIn (replaceEntry l id s) id = some s := by
  induction l with
  | nil => simp [containsKey] at hc
  | cons p rest ih =>
    by_cases hp : p.1 = id
    · simp [replaceEntry, hp, lookupIn]
    · have hc' : containsKey rest id = true := by simpa [containsKey, hp] using hc
      simp [replaceEntry, hp, lookupIn, ih hc']

theorem lookupIn_replaceEntry_ne (l : List (String × ShellSession)) (id id' : String)
    (s : ShellSession) (h : id' ≠ id) :
    lookupIn (replaceEntry l id s) id' = lookupIn l id' := by
  induction l with
  | nil => simp [replaceEntry]
  | cons p rest ih =>
    by_cases hp : p.1 = id
    · have hne : ¬ id = id' := fun hh => h hh.symm
      have hne2 : ¬ p.1 = id' := by rw [hp]; exact hne
      simp [replaceEntry, hp, lookupIn, hne, hne2, ih]
    · by_cases hp' : p.1 = id'
      · simp [replaceEntry, hp, lookupIn, hp', h]
      · simp [replaceEntry, hp, lookupIn, hp', h, ih]

theorem lookupIn_append_self (l : List (String × ShellSession)) (id : String)
    (s : ShellSession) (hc : containsKey l id = false) :
    lookupIn (l ++ [(id, s)]) id = some s := by
  induction l with
  | nil => simp [lookupIn]
  | cons p rest ih =>
    by_cases hp : p.1 = id
    · simp [containsKey, hp] at hc
    · have hc' : containsKey rest id = false := by simpa [containsKey, hp] using hc
      simp [lookupIn, hp, ih hc']

theorem lookupIn_append_ne (l : List (String × ShellSession)) (id id' : String)
    (s : ShellSession) (h : id' ≠ id) :
    lookupIn (l ++ [(id, s)]) id' = lookupIn l id' := by
  induction l with
  | nil =>
    have hne : ¬ id = id' := fun hh => h hh.symm
    simp [lookupIn, hne]
  | cons p rest ih =>
    by_cases hp : p.1 = id'
    · simp [lookupIn, hp]
    · simp [lookupIn, hp, ih]

theorem lookupIn_insert_self (l : List (String × ShellSession)) (id : String)
    (s : ShellSession) :
    lookupIn (insertSession l id s) id = some s := by
  unfold insertSession
  by_cases hc : containsKey l id = true
  · rw [if_pos hc]; exact lookupIn_replaceEntry_self l id s hc
  · have hc' : containsKey l id = false := by simpa using hc
    rw [if_neg (by simp [hc'])]
    exact lookupIn_append_self l id s hc'

theorem lookupIn_insert_ne (l : List (String × ShellSession)) (id id' : String)
    (s : ShellSession) (h : id' ≠ id) :
    lookupIn (insertSession l id s) id' = lookupIn l id' := by
  unfold insertSession
  by_cases hc : containsKey l id = true
  · rw [if_pos hc]; exact lookupIn_replaceEntry_ne l id id' s h
  · rw [if_neg (by simpa using hc)]
    exact lookupIn_append_ne l id id' s h

theorem lookupIn_update_self (l : List (String × ShellSession)) (id : String)
    (f : ShellSession → ShellSession) :
    lookupIn (updateSession l id f) id = (lookupIn l id).map f := by
  induction l with
  | nil => simp [updateSession, lookupIn]
  | cons p rest ih =>
    by_cases hp : p.1 = id
    · simp [updateSession, hp, lookupIn]
    · simp [updateSession, hp, lookupIn, ih]

theorem lookupIn_update_ne (l : List (String × ShellSession)) (id id' : String)
    (f : ShellSession → ShellSession) (h : id' ≠ id) :
    lookupIn (updateSession l id f) id' = lookupIn l id' := by
  induction l with
  | nil => simp [updateSession]
  | cons p rest ih =>
    have hne : ¬ id = id' := fun hh => h hh.symm
    by_cases hp : p.1 = id
    · have hne2 : ¬ p.1 = id' := by rw [hp]; exact hne
      simp [updateSession, hp, lookupIn, hne, hne2, h, ih]
    · by_cases hp' : p.1 = id'
      · simp [updateSession, hp, lookupIn, hp', h]
      · simp [updateSession, hp, lookupIn, hp', h, ih]

theorem lookupIn_remove_self (l : List (String × ShellSession)) (id : String) :
    lookupIn (removeSession l id) id = none := by
  induction l with
  | nil => simp [removeSession, lookupIn]
  | cons p rest ih =>
    by_cases hp : p.1 = id
    · simp [removeSession, hp, ih]
    · simp [removeSession, hp, lookupIn, ih]

theorem lookupIn_remove_ne (l : List (String × ShellSession)) (id id' : String)
    (h : id' ≠ id) :
    lookupIn (removeSession l id) id' = lookupIn l id' := by
  induction l with
  | nil => simp [removeSession]
  | cons p rest ih =>
    have hne : ¬ id = id' := fun hh => h hh.symm
    by_cases hp : p.1 = id
    · have hne2 : ¬ p.1 = id' := by rw [hp]; exact hne
      simp [removeSession, hp, lookupIn, hne, hne2, h, ih]
    · by_cases hp' : p.1 = id'
      · simp [removeSession, hp, lookupIn, hp', h]
      · simp [removeSession, hp, lookupIn, hp', h, ih]

theorem lookupIn_dropTerminated (l : List (String × ShellSession)) (id : String)
    (s : ShellSession) (h : lookupIn l id = some s)
    (hs : s.state ≠ ShellState.Terminated) :
    lookupIn (dropTerminated l) id = some s := by
  induction l with
  | nil => simp [lookupIn] at h
  | cons p rest ih =>
    by_cases hp : p.1 = id
    · have hps : p.2 = s := by simpa [lookupIn, hp] using h
      have hterm : ¬ p.2.state = ShellState.Terminated := by rw [hps]; exact hs
      simp [dropTerminated, hterm, hps, hs, lookupIn, hp]
    · have h' : lookupIn rest id = some s := by simpa [lookupIn, hp] using h
      by_cases hterm : p.2.state = ShellState.Terminated
      · simp [dropTerminated, hterm, ih h']
      · simp [dropTerminated, hterm, lookupIn, hp, ih h']

/-- The foreground invariant as a proposition. -/
def ForegroundInv (m : ShellSessionManager) : Prop :=
  ∀ id, m.active_session = some id →
    ∃ s, lookupSession m id = some s ∧ s.state ≠ ShellState.Terminated

theorem foregroundInvB_none_eq (m : ShellSessionManager)
    (ha : m.active_session = none) : foregroundInvB m = true := by
  unfold foregroundInvB; rw [ha]

theorem foregroundInvB_some_eq (m : ShellSessionManager) (a : String)
    (ha : m.active_session = some a) :
    foregroundInvB m = stateOkB (lookupSession m a) := by
  unfold foregroundInvB; rw [ha]

theorem foregroundInvB_eq_true_iff (m : ShellSessionManager) :
    foregroundInvB m = true ↔ ForegroundInv m := by
  cases ha : m.active_session with
  | none =>
    rw [foregroundInvB_none_eq m ha]
    constructor
    · intro _ id hid
      rw [ha] at hid; cases hid
    · intro _; rfl
  | some a =>
    rw [foregroundInvB_some_eq m a ha]
    cases hl : lookupSession m a with
    | none =>
      constructor
      · intro h; exact absurd h (by decide)
      · intro h
        obtain ⟨s, hs, _⟩ := h a ha
        rw [hl] at hs; cases hs
    | some s =>
      constructor
      · intro hB id hid
        rw [ha] at hid
        injection hid with h2
        subst h2
        refine ⟨s, hl, ?_⟩
        intro hterm
        rw [show stateOkB (some s) =
          if s.state = ShellState.Terminated then false else true from rfl,
          if_pos hterm] at hB
        cases hB
      · intro h
        obtain ⟨s', hs', hterm⟩ := h a ha
        rw [hl] at hs'
        injection hs' with hseq
        subst hseq
        rw [show stateOkB (some s) =
          if s.state = ShellState.Terminated then false else true from rfl,
          if_neg hterm]

theorem cleanup_active (m : ShellSessionManager) :
    (cleanup_terminated_sessions m).active_session = m.active_session := by
  unfold cleanup_terminated_sessions
  by_cases h : anyTerminated m.sessions = true <;> simp [h, save_active]

theorem cleanup_lookup (m : ShellSessionManager) (id : String) :
    lookupSession (cleanup_terminated_sessions m) id =
      lookupIn (dropTerminated m.sessions) id := by
  unfold cleanup_terminated_sessions
  by_cases h : anyTerminated m.sessions = true <;>
    simp [h, lookupSession, save_sessions_to_file]

theorem direct_terminate_active (m : ShellSessionManager) (id : String) :
    (direct_terminate m id).active_session = m.active_session := rfl

/-- Preservation of the foreground invariant by every registry-level
    operation (direct `ShellSession::terminate` excluded). -/
theorem inv_applyOp (m : ShellSessionManager) (op : MgrOp)
    (hop : op.isDirectTerminate = false) (h : ForegroundInv m) :
    ForegroundInv (applyOp m op) := by
  cases op with
  | register id addr now probe =>
    intro id2 h'
    have hact : (applyOp m (MgrOp.register id addr now probe)).active_session =
        if m.active_session = none then some id else m.active_session := rfl
    rw [hact] at h'
    have hlook : ∀ x, lookupSession (applyOp m (MgrOp.register id addr now probe)) x =
        lookupIn (insertSession m.sessions id (registeredSession id addr now probe)) x :=
      fun _ => rfl
    cases ha : m.active_session with
    | none =>
      rw [ha, if_pos rfl] at h'
      injection h' with h''
      subst h''
      refine ⟨registeredSession id addr now probe, ?_, ?_⟩
      · rw [hlook]; exact lookupIn_insert_self _ _ _
      · rw [registeredSession_state]; simp
    | some a =>
      rw [ha, if_neg (by simp)] at h'
      injection h' with h''
      subst h''
      obtain ⟨s, hs, hstate⟩ := h a ha
      by_cases hid : a = id
      · refine ⟨registeredSession id addr now probe, ?_, ?_⟩
        · rw [hid, hlook]; exact lookupIn_insert_self _ _ _
        · rw [registeredSession_state]; simp
      · refine ⟨s, ?_, hstate⟩
        rw [hlook, lookupIn_insert_ne _ _ _ _ hid]
        exact hs
  | background id =>
    intro id2 h'
    cases hl : lookupSession m id with
    | none =>
      have hl' : lookupIn m.sessions id = none := hl
      have heq : applyOp m (MgrOp.background id) = m := by
        simp [applyOp, background_session, hl, hl', lookupSession]
      rw [heq] at h' ⊢
      exact h id2 h'
    | some s0 =>
      have hl' : lookupIn m.sessions id = some s0 := hl
      have hact : (applyOp m (MgrOp.background id)).active_session =
          if m.active_session = some id then none else m.active_session := by
        simp [applyOp, background_session, hl, hl', lookupSession]
      have hlook : ∀ x, lookupSession (applyOp m (MgrOp.background id)) x =
          lookupIn (updateSession m.sessions id
            (fun s => { s with state := ShellState.Background })) x := by
        intro x
        simp [applyOp, background_session, hl, hl', lookupSession]
      rw [hact] at h'
      by_cases hactive : m.active_session = some id
      · rw [if_pos hactive] at h'
        cases h'
      · rw [if_neg hactive] at h'
        have hne : id2 ≠ id := by
          intro hh; subst hh; exact hactive h'
        obtain ⟨s, hs, hstate⟩ := h id2 h'
        refine ⟨s, ?_, hstate⟩
        rw [hlook, lookupIn_update_ne _ _ _ _ hne]
        exact hs
  | foreground id =>
    intro id2 h'
    cases hl : lookupSession m id with
    | none =>
      have hl' : lookupIn m.sessions id = none := hl
      have heq : applyOp m (MgrOp.foreground id) = m := by
        simp [applyOp, foreground_session, hl, hl', lookupSession]
      rw [heq] at h' ⊢
      exact h id2 h'
    | some s0 =>
      have hl' : lookupIn m.sessions id = some s0 := hl
      have hact : (applyOp m (MgrOp.foreground id)).active_session = some id := by
        simp [applyOp, foreground_session, hl, hl', lookupSession]
      have hlook : ∀ x, lookupSession (applyOp m (MgrOp.foreground id)) x =
          lookupIn (updateSession m.sessions id
            (fun s => { s with state := ShellState.Active })) x := by
        intro x
        simp [applyOp, foreground_session, hl, hl', lookupSession]
      rw [hact] at h'
      injection h' with h''
      subst h''
      refine ⟨{ s0 with state := ShellState.Active }, ?_, by simp⟩
      rw [hlook, lookupIn_update_self, hl']
      rfl
  | terminate id =>
    intro id2 h'
    cases hl : lookupSession m id with
    | none =>
      have hl' : lookupIn m.sessions id = none := hl
      have heq : applyOp m (MgrOp.terminate id) = m := by
        simp [applyOp, terminate_session, hl, hl', lookupSession]
      rw [heq] at h' ⊢
      exact h id2 h'
    | some s0 =>
      have hl' : lookupIn m.sessions id = some s0 := hl
      have hact : (applyOp m (MgrOp.terminate id)).active_session =
          if m.active_session = some id then none else m.active_session := by
        simp [applyOp, terminate_session, hl, hl', lookupSession,
          save_sessions_to_file]
      have hlook : ∀ x, lookupSession (applyOp m (MgrOp.terminate id)) x =
          lookupIn (removeSession m.sessions id) x := by
        intro x
        simp [applyOp, terminate_session, hl, hl', lookupSession,
          save_sessions_to_file]
      rw [hact] at h'
      by_cases hactive : m.active_session = some id
      · rw [if_pos hactive] at h'
        cases h'
      · rw [if_neg hactive] at h'
        have hne : id2 ≠ id := by
          intro hh; subst hh; exact hactive h'
        obtain ⟨s, hs, hstate⟩ := h id2 h'
        refine ⟨s, ?_, hstate⟩
        rw [hlook, lookupIn_remove_ne _ _ _ hne]
        exact hs
  | cleanup =>
    intro id2 h'
    rw [show applyOp m MgrOp.cleanup = cleanup_terminated_sessions m from rfl] at h' ⊢
    rw [cleanup_active] at h'
    rw [cleanup_lookup]
    obtain ⟨s, hs, hstate⟩ := h id2 h'
    exact ⟨s, lookupIn_dropTerminated _ _ _ hs hstate, hstate⟩
  | directTerminate id =>
    simp [MgrOp.isDirectTerminate] at hop

/-- Preservation of the foreground invariant along any trace of registry
    operations that never calls `ShellSession::terminate` directly. -/
theorem inv_foldl (ops : List MgrOp) :
    ∀ (m : ShellSessionManager),
      (∀ op ∈ ops, op.isDirectTerminate = false) → ForegroundInv m →
      ForegroundInv (ops.foldl applyOp m) := by
  induction ops with
  | nil => intro m _ h; simpa using h
  | cons op rest ih =>
    intro m hops h
    simp only [List.foldl_cons]
    exact ih _ (fun o ho => hops o (List.mem_cons_of_mem _ ho))
      (inv_applyOp m op (hops op (List.mem_cons_self _ _)) h)

/-! ## Claims -/

/-- C1 counterexample: the claim includes termination via
    `ShellSession::terminate` called directly among the covered
    operations, but that path never clears the foreground pointer.
    After registering one session and terminating it directly, the
    foreground pointer still names a mapped session whose state is
    `Terminated` (invariant check fails); after the following cleanup
    sweep the pointer still names `"s1"` although the id is no longer in
    the map at all. -/
theorem c1_counterexample :
    foregroundInvB
      (applyOp (applyOp ShellSessionManager.new
        (MgrOp.register "s1" "10.0.0.5:4444" 0 []))
        (MgrOp.directTerminate "s1")) = false ∧
    (applyOp (applyOp (applyOp ShellSessionManager.new
        (MgrOp.register "s1" "10.0.0.5:4444" 0 []))
        (MgrOp.directTerminate "s1")) MgrOp.cleanup).active_session = some "s1" ∧
    lookupSession (applyOp (applyOp (applyOp ShellSessionManager.new
        (MgrOp.register "s1" "10.0.0.5:4444" 0 []))
        (MgrOp.directTerminate "s1")) MgrOp.cleanup) "s1" = none := by
  refine ⟨?_, ?_, ?_⟩ <;> rfl

/-- C1 (amended): at most one session id is foreground at any time (the
    pointer is an `Option`), and along every sequence of
    `register_session` / `background_session` / `foreground_session` /
    `terminate_session` / `cleanup_terminated_sessions` operations the
    foreground id always names a mapped session whose state is not
    `Terminated`; `background_session` and `terminate_session` of the
    foreground id clear the pointer, but the cleanup sweep and a direct
    `ShellSession::terminate` never touch it. -/
theorem c1_foreground_invariant :
    (∀ (ops : List MgrOp) (m : ShellSessionManager),
        (∀ op ∈ ops, op.isDirectTerminate = false) →
        foregroundInvB m = true →
        foregroundInvB (ops.foldl applyOp m) = true) ∧
    (∀ m id s, lookupSession m id = some s →
        (background_session m id).2.active_session =
          (if m.active_session = some id then none else m.active_session)) ∧
    (∀ m id s, lookupSession m id = some s →
        (terminate_session m id).2.active_session =
          (if m.active_session = some id then none else m.active_session)) ∧
    (∀ m, (cleanup_terminated_sessions m).active_session = m.active_session) ∧
    (∀ m id, (direct_terminate m id).active_session = m.active_session) := by
  refine ⟨?_, ?_, ?_, ?_, ?_⟩
  · intro ops m hops hinv
    rw [foregroundInvB_eq_true_iff] at hinv ⊢
    exact inv_foldl ops m hops hinv
  · intro m id s hl
    have hl' : lookupIn m.sessions id = some s := hl
    simp [background_session, hl, hl', lookupSession]
  · intro m id s hl
    have hl' : lookupIn m.sessions id = some s := hl
    simp [terminate_session, hl, hl', lookupSession, save_sessions_to_file]
  · exact cleanup_active
  · intro m id; rfl

/-- C1 witness: the invariant-preservation part of
    `c1_foreground_invariant` applied to the concrete trace
    register-then-background starting from the fresh manager. -/
theorem c1_foreground_invariant_witness :
    (∀ op ∈ [MgrOp.register "s1" "10.0.0.5:4444" 0 ([] : List String),
      MgrOp.background "s1"], op.isDirectTerminate = false) ∧
    foregroundInvB ShellSessionManager.new = true ∧
    foregroundInvB
      ([MgrOp.register "s1" "10.0.0.5:4444" 0 ([] : List String),
        MgrOp.background "s1"].foldl applyOp ShellSessionManager.new) = true :=
  ⟨by decide, by decide, c1_foreground_invariant.1 _ _ (by decide) (by decide)⟩

/-- C2 counterexample: the handler receives parsed key events; the byte
    sequence ESC `[` A (1B 5B 41) reaches it as the `Up` key, and the
    payload forwarded to the session for it is the four bytes
    ESC `[` A LF (`send_command` appends a newline), not the three bytes
    the claim requires.  A lone Esc key event backgrounds the session
    immediately — the code contains no 100 ms disambiguation timer, no
    buffering of the Esc byte, and no wait for silence. -/
theorem c2_counterexample :
    (handle_key_event ⟨KeyCode.up, false⟩ "").1 = KeyAction.sendBytes "\x1b[A\n" ∧
    KeyAction.sendBytes "\x1b[A\n" ≠ KeyAction.sendBytes "\x1b[A" ∧
    (handle_key_event ⟨KeyCode.esc, false⟩ "").1 = KeyAction.backgroundSession := by
  decide

/-- C2 (amended): a lone Esc key event immediately backgrounds the
    active session — there is no disambiguation timer, so detachment does
    not depend on 100 ms of silence; multi-byte escape sequences are
    consumed by the terminal event layer and arrive as parsed key events
    (ESC `[` A arrives as `Up`), which do not detach but are re-encoded
    and forwarded through `send_command`, which appends a trailing
    newline (`Up` is delivered as the four bytes ESC `[` A LF). -/
theorem c2_esc_detach_immediate (input : String) :
    (handle_key_event ⟨KeyCode.esc, false⟩ input).1 = KeyAction.backgroundSession ∧
    (handle_key_event ⟨KeyCode.up, false⟩ input).1 =
      KeyAction.sendBytes "\x1b[A\n" ∧
    (handle_key_event ⟨KeyCode.up, false⟩ input).2 = input :=
  ⟨rfl, rfl, rfl⟩

/-- C2 witness: the amended theorem applied at the concrete pending
    input line `xy`. -/
theorem c2_esc_detach_immediate_witness :
    (handle_key_event ⟨KeyCode.esc, false⟩ "xy").1 = KeyAction.backgroundSession :=
  (c2_esc_detach_immediate "xy").1

/-- C4 counterexample: a printable character is not delivered as exactly
    that byte — the handler routes it through `send_command`, which
    appends a newline, so pressing `a` delivers the two bytes `a` LF. -/
theorem c4_counterexample :
    (handle_key_event ⟨KeyCode.char 'a', false⟩ "").1 = KeyAction.sendBytes "a\n" ∧
    KeyAction.sendBytes "a\n" ≠ KeyAction.sendBytes "a" := by
  decide

/-- C4 (amended): each input unit is mapped to its standard single-byte
    or escape-sequence encoding but delivered through `send_command`,
    which appends a trailing newline to every payload not already ending
    in one: a printable character `c` is delivered as `c` LF, Tab as 09
    0A, Backspace as 08 0A, Ctrl-C as 03 0A, arrows as ESC `[` X LF;
    only Enter (whose payload already ends in a newline) is delivered
    without an extra byte. -/
theorem c4_key_forwarding (c : Char) (input : String) (hc : c ≠ '\n') :
    (handle_key_event ⟨KeyCode.char c, false⟩ input).1 =
      KeyAction.sendBytes (String.mk [c] ++ "\n") ∧
    (handle_key_event ⟨KeyCode.tab, false⟩ input).1 = KeyAction.sendBytes "\t\n" ∧
    (handle_key_event ⟨KeyCode.backspace, false⟩ input).1 =
      KeyAction.sendBytes "\x08\n" ∧
    (handle_key_event ⟨KeyCode.up, false⟩ input).1 = KeyAction.sendBytes "\x1b[A\n" ∧
    (handle_key_event ⟨KeyCode.down, false⟩ input).1 = KeyAction.sendBytes "\x1b[B\n" ∧
    (handle_key_event ⟨KeyCode.left, false⟩ input).1 = KeyAction.sendBytes "\x1b[D\n" ∧
    (handle_key_event ⟨KeyCode.right, false⟩ input).1 = KeyAction.sendBytes "\x1b[C\n" ∧
    (handle_key_event ⟨KeyCode.char 'c', true⟩ input).1 = KeyAction.sendBytes "\x03\n" ∧
    (handle_key_event ⟨KeyCode.enter, false⟩ input).1 =
      KeyAction.sendBytes (input ++ "\n") := by
  have h1 : endsWithNewline (String.mk [c]) = false := by
    simp [endsWithNewline]
    exact hc
  have h2 : endsWithNewline (input ++ "\n") = true := by
    have hd : (input ++ "\n").data = input.data ++ ['\n'] := rfl
    simp [endsWithNewline, hd]
  refine ⟨?_, rfl, rfl, rfl, rfl, rfl, rfl, rfl, ?_⟩
  · simp [handle_key_event, send_command, h1]
  · simp [handle_key_event, send_command, h2]

/-- C4 witness: the amended forwarding theorem applied at the printable
    character `a` with pending input line `ls`. -/
theorem c4_key_forwarding_witness :
    ('a' : Char) ≠ '\n' ∧
    (handle_key_event ⟨KeyCode.char 'a', false⟩ "ls").1 =
      KeyAction.sendBytes (String.mk ['a'] ++ "\n") :=
  ⟨by decide, (c4_key_forwarding 'a' "ls" (by decide)).1⟩

/-- A disconnect exit of the I/O loop leaves the state `Background`,
    pushes exactly one synthetic notification after the forwarded data,
    and does not touch the socket: the queue grows by the data chunks
    (which also land in the output buffer) plus the single notification
    line. -/
theorem ioRun_disconnect_shape :
    ∀ (evs : List IoEvent) (st : IoState) (notif : String),
      (ioRun st evs).2 = some (IoExit.disconnected notif) →
      ∃ interm,
        (ioRun st evs).1.output_buffer = st.output_buffer ++ interm ∧
        (ioRun st evs).1.out_queue = st.out_queue ++ interm ++ [notif] ∧
        (ioRun st evs).1.state = ShellState.Background ∧
        (ioRun st evs).1.socket_shutdown = st.socket_shutdown := by
  intro evs
  induction evs with
  | nil =>
    intro st notif h
    simp [ioRun] at h
  | cons ev rest ih =>
    intro st notif h
    cases ev with
    | readZero =>
      have h' : some (IoExit.disconnected connectionLostNotif) =
          some (IoExit.disconnected notif) := h
      injection h' with h1
      injection h1 with h2
      subst h2
      exact ⟨[], by simp [ioRun, ioStep], by simp [ioRun, ioStep], rfl, rfl⟩
    | readErr e =>
      have h' : some (IoExit.disconnected (networkErrorNotif e)) =
          some (IoExit.disconnected notif) := h
      injection h' with h1
      injection h1 with h2
      subst h2
      exact ⟨[], by simp [ioRun, ioStep], by simp [ioRun, ioStep], rfl, rfl⟩
    | readOk data =>
      by_cases hterm : st.state = ShellState.Terminated
      · have hexit : (ioRun st (IoEvent.readOk data :: rest)).2 =
            some IoExit.externalTerminate := by
          simp [ioRun, ioStep, hterm]
        rw [hexit] at h
        simp at h
      · have hred : ioRun st (IoEvent.readOk data :: rest) =
            ioRun
              { st with
                  output_buffer := st.output_buffer ++ [data]
                  out_queue := st.out_queue ++ [data] } rest := by
          simp [ioRun, ioStep, hterm]
        rw [hred] at h ⊢
        obtain ⟨interm, hb, hq, hs, hsd⟩ := ih _ notif h
        refine ⟨data :: interm, ?_, ?_, hs, hsd⟩
        · rw [hb]; simp
        · rw [hq]; simp
    | command cmd outcome =>
      cases outcome with
      | ok =>
        by_cases hterm : st.state = ShellState.Terminated
        · have hexit : (ioRun st (IoEvent.command cmd WriteOutcome.ok :: rest)).2 =
              some IoExit.externalTerminate := by
            simp [ioRun, ioStep, hterm]
          rw [hexit] at h
          simp at h
        · have hred : ioRun st (IoEvent.command cmd WriteOutcome.ok :: rest) =
              ioRun { st with written := st.written ++ [cmd] } rest := by
            simp [ioRun, ioStep, hterm]
          rw [hred] at h ⊢
          obtain ⟨interm, hb, hq, hs, hsd⟩ := ih _ notif h
          exact ⟨interm, hb, hq, hs, hsd⟩
      | writeErr e =>
        have h' : some (IoExit.disconnected (writeErrorNotif e)) =
            some (IoExit.disconnected notif) := h
        injection h' with h1
        injection h1 with h2
        subst h2
        exact ⟨[], by simp [ioRun, ioStep], by simp [ioRun, ioStep], rfl, rfl⟩
      | flushErr e =>
        have h' : some (IoExit.disconnected (flushErrorNotif e)) =
            some (IoExit.disconnected notif) := h
        injection h' with h1
        injection h1 with h2
        subst h2
        exact ⟨[], by simp [ioRun, ioStep], by simp [ioRun, ioStep], rfl, rfl⟩
    | terminateCall =>
      have h' : some IoExit.externalTerminate =
          some (IoExit.disconnected notif) := h
      simp at h'

/-- Without a `terminate()` call in the trace, the I/O loop never shuts
    the socket down and never makes the state `Terminated` on its own. -/
theorem ioRun_no_terminate :
    ∀ (evs : List IoEvent) (st : IoState),
      IoEvent.terminateCall ∉ evs →
      (ioRun st evs).1.socket_shutdown = st.socket_shutdown ∧
      ((ioRun st evs).1.state = ShellState.Terminated →
        st.state = ShellState.Terminated) := by
  intro evs
  induction evs with
  | nil => intro st _; exact ⟨rfl, fun h => h⟩
  | cons ev rest ih =>
    intro st hmem
    have hrest : IoEvent.terminateCall ∉ rest := fun hr =>
      hmem (List.mem_cons_of_mem _ hr)
    cases ev with
    | readZero => exact ⟨rfl, fun h => absurd h (by simp [ioRun, ioStep])⟩
    | readErr e => exact ⟨rfl, fun h => absurd h (by simp [ioRun, ioStep])⟩
    | readOk data =>
      by_cases hterm : st.state = ShellState.Terminated
      · have hred : (ioRun st (IoEvent.readOk data :: rest)).1 =
            { st with
                output_buffer := st.output_buffer ++ [data]
                out_queue := st.out_queue ++ [data] } := by
          simp [ioRun, ioStep, hterm]
        rw [hred]
        exact ⟨rfl, fun _ => hterm⟩
      · have hred : ioRun st (IoEvent.readOk data :: rest) =
            ioRun
              { st with
                  output_buffer := st.output_buffer ++ [data]
                  out_queue := st.out_queue ++ [data] } rest := by
          simp [ioRun, ioStep, hterm]
        rw [hred]
        obtain ⟨h1, h2⟩ := ih _ hrest
        exact ⟨h1, fun h => h2 h⟩
    | command cmd outcome =>
      cases outcome with
      | ok =>
        by_cases hterm : st.state = ShellState.Terminated
        · have hred : (ioRun st (IoEvent.command cmd WriteOutcome.ok :: rest)).1 =
              { st with written := st.written ++ [cmd] } := by
            simp [ioRun, ioStep, hterm]
          rw [hred]
          exact ⟨rfl, fun _ => hterm⟩
        · have hred : ioRun st (IoEvent.command cmd WriteOutcome.ok :: rest) =
              ioRun { st with written := st.written ++ [cmd] } rest := by
            simp [ioRun, ioStep, hterm]
          rw [hred]
          obtain ⟨h1, h2⟩ := ih _ hrest
          exact ⟨h1, fun h => h2 h⟩
      | writeErr e => exact ⟨rfl, fun h => absurd h (by simp [ioRun, ioStep])⟩
      | flushErr e => exact ⟨rfl, fun h => absurd h (by simp [ioRun, ioStep])⟩
    | terminateCall => exact absurd (List.mem_cons_self _ _) hmem

/-- C3: a disconnect exit of the I/O task (zero-byte read, read error,
    write error or flush error) always leaves the session state
    `Background` — never `Terminated` — pushes exactly one synthetic
    notification line into the output queue (after the data chunks that
    were forwarded, which are exactly those appended to the output
    buffer), and the loop exits without shutting the socket down; the
    state becomes `Terminated` and the socket is shut down only through
    an explicit `terminate()` call. -/
theorem c3_disconnect_semantics :
    (∀ (evs : List IoEvent) (st : IoState) (notif : String),
        (ioRun st evs).2 = some (IoExit.disconnected notif) →
        ∃ interm,
          (ioRun st evs).1.output_buffer = st.output_buffer ++ interm ∧
          (ioRun st evs).1.out_queue = st.out_queue ++ interm ++ [notif] ∧
          (ioRun st evs).1.state = ShellState.Background ∧
          (ioRun st evs).1.socket_shutdown = st.socket_shutdown) ∧
    (∀ (evs : List IoEvent) (st : IoState),
        IoEvent.terminateCall ∉ evs →
        (ioRun st evs).1.socket_shutdown = st.socket_shutdown ∧
        ((ioRun st evs).1.state = ShellState.Terminated →
          st.state = ShellState.Terminated)) ∧
    (∀ st : IoState,
        (ioStep st IoEvent.terminateCall).1.state = ShellState.Terminated ∧
        (ioStep st IoEvent.terminateCall).1.socket_shutdown = true) :=
  ⟨ioRun_disconnect_shape, ioRun_no_terminate, fun _ => ⟨rfl, rfl⟩⟩

/-- C3 witness: the disconnect-shape part applied to a concrete trace
    that forwards one chunk and then hits a read error. -/
theorem c3_disconnect_semantics_witness :
    (ioRun ⟨ShellState.Active, [], [], [], false⟩
        [IoEvent.readOk "hi", IoEvent.readErr "reset"]).2 =
      some (IoExit.disconnected (networkErrorNotif "reset")) ∧
    ∃ interm,
      (ioRun ⟨ShellState.Active, [], [], [], false⟩
          [IoEvent.readOk "hi", IoEvent.readErr "reset"]).1.output_buffer =
        [] ++ interm ∧
      (ioRun ⟨ShellState.Active, [], [], [], false⟩
          [IoEvent.readOk "hi", IoEvent.readErr "reset"]).1.out_queue =
        [] ++ interm ++ [networkErrorNotif "reset"] ∧
      (ioRun ⟨ShellState.Active, [], [], [], false⟩
          [IoEvent.readOk "hi", IoEvent.readErr "reset"]).1.state =
        ShellState.Background ∧
      (ioRun ⟨ShellState.Active, [], [], [], false⟩
          [IoEvent.readOk "hi", IoEvent.readErr "reset"]).1.socket_shutdown =
        false :=
  ⟨by decide, c3_disconnect_semantics.1 _ _ _ (by decide)⟩

/-- C7: a read error backgrounds the session (it does not terminate it);
    a non-`Terminated` session survives the cleanup sweep, so it stays in
    the registry until explicitly terminated; and `handle_disconnect`
    increments the reconnect counter for each tolerated disconnect while
    the budget lasts, hard-terminating exactly when the count has reached
    `max_reconnect_attempts`. -/
theorem c7_reconnect_budget :
    (∀ (st : IoState) (e : String),
        (ioStep st (IoEvent.readErr e)).1.state = ShellState.Background) ∧
    (∀ (m : ShellSessionManager) (id : String) (s : ShellSession),
        lookupSession m id = some s → s.state ≠ ShellState.Terminated →
        lookupSession (cleanup_terminated_sessions m) id = some s) ∧
    (∀ s : ShellSession, s.reconnect_attempts < s.max_reconnect_attempts →
        ((s.handle_disconnect).state = ShellState.Background ∧
         (s.handle_disconnect).reconnect_attempts = s.reconnect_attempts + 1)) ∧
    (∀ s : ShellSession, ¬ s.reconnect_attempts < s.max_reconnect_attempts →
        (s.handle_disconnect).state = ShellState.Terminated) := by
  refine ⟨fun _ _ => rfl, ?_, ?_, ?_⟩
  · intro m id s h hs
    rw [cleanup_lookup]
    exact lookupIn_dropTerminated _ _ _ h hs
  · intro s h
    constructor <;> simp [ShellSession.handle_disconnect, h]
  · intro s h
    simp [ShellSession.handle_disconnect, h]

/-- C7 witness: a fresh session (0 of 3 reconnect attempts used) is
    backgrounded by `handle_disconnect` and its counter moves to 1. -/
theorem c7_reconnect_budget_witness :
    (ShellSession.new "s1" "10.0.0.5:4444" 0).reconnect_attempts <
      (ShellSession.new "s1" "10.0.0.5:4444" 0).max_reconnect_attempts ∧
    ((ShellSession.new "s1" "10.0.0.5:4444" 0).handle_disconnect.state =
        ShellState.Background ∧
      (ShellSession.new "s1" "10.0.0.5:4444" 0).handle_disconnect.reconnect_attempts =
        (ShellSession.new "s1" "10.0.0.5:4444" 0).reconnect_attempts + 1) :=
  ⟨by decide, c7_reconnect_budget.2.2.1 _ (by decide)⟩

/-- C5: `register_session` returns the new id, makes it foreground
    exactly when no session was foreground (never displacing an existing
    foreground session), stores the session in the map, and does so only
    after stabilization has completed: the stored session's metadata is
    the stabilizer's parse of the probe output (with `last_seen`
    refreshed) and its output buffer is already cleared when
    registration returns. -/
theorem c5_register_session (m : ShellSessionManager) (id addr : String) (now : Nat)
    (probe : List String) :
    (register_session m id addr now probe).2 = id ∧
    (register_session m id addr now probe).1.active_session =
      (if m.active_session = none then some id else m.active_session) ∧
    lookupSession (register_session m id addr now probe).1 id =
      some (registeredSession id addr now probe) ∧
    (registeredSession id addr now probe).output_buffer = [] ∧
    (registeredSession id addr now probe).metadata =
      { stabilizeUpdateMetadata (String.join probe)
          (ShellSession.new id addr now).metadata with last_seen := now } := by
  refine ⟨rfl, rfl, ?_, rfl, rfl⟩
  exact lookupIn_insert_self _ _ _

/-- C5 witness: the registration theorem applied at a concrete fresh
    registry. -/
theorem c5_register_session_witness :
    (register_session ShellSessionManager.new "s5" "10.0.0.7:4444" 0 []).2 = "s5" :=
  (c5_register_session ShellSessionManager.new "s5" "10.0.0.7:4444" 0 []).1

/-- C6: terminating a registered id removes it from the map (its socket
    is shut down by `ShellSession::terminate`) and succeeds; a second
    `terminate_session` on the same id returns the "not found" error and
    leaves the registry state exactly unchanged. -/
theorem terminate_session_not_found (m : ShellSessionManager) (id : String)
    (h : lookupSession m id = none) :
    terminate_session m id = (Except.error ("Session not found: " ++ id), m) := by
  have h' : lookupIn m.sessions id = none := h
  simp [terminate_session, lookupSession, h']

theorem c6_terminate_idempotent (m : ShellSessionManager) (id : String)
    (s : ShellSession) (h : lookupSession m id = some s) :
    (terminate_session m id).1 = Except.ok () ∧
    lookupSession (terminate_session m id).2 id = none ∧
    ((ShellSession.terminate s).state = ShellState.Terminated ∧
      (ShellSession.terminate s).socket_shutdown = true) ∧
    (terminate_session (terminate_session m id).2 id).1 =
      Except.error ("Session not found: " ++ id) ∧
    (terminate_session (terminate_session m id).2 id).2 =
      (terminate_session m id).2 := by
  have h' : lookupIn m.sessions id = some s := h
  have h1 : (terminate_session m id).1 = Except.ok () := by
    simp [terminate_session, h, h', lookupSession]
  have h2 : lookupSession (terminate_session m id).2 id = none := by
    have hx : lookupSession (terminate_session m id).2 id =
        lookupIn (removeSession m.sessions id) id := by
      simp [terminate_session, h, h', lookupSession, save_sessions_to_file]
    rw [hx]
    exact lookupIn_remove_self _ _
  refine ⟨h1, h2, ⟨rfl, rfl⟩, ?_, ?_⟩
  · rw [terminate_session_not_found _ _ h2]
  · rw [terminate_session_not_found _ _ h2]

/-- C6 witness: terminating the registered session `"s1"` succeeds, and
    the idempotence theorem applies at this concrete registry. -/
theorem c6_terminate_idempotent_witness :
    lookupSession c6Manager "s1" = some (registeredSession "s1" "10.0.0.5:4444" 0 []) ∧
    (terminate_session c6Manager "s1").1 = Except.ok () ∧
    (terminate_session (terminate_session c6Manager "s1").2 "s1").1 =
      Except.error ("Session not found: " ++ "s1") :=
  ⟨by decide,
   (c6_terminate_idempotent c6Manager "s1"
     (registeredSession "s1" "10.0.0.5:4444" 0 []) (by decide)).1,
   (c6_terminate_idempotent c6Manager "s1"
     (registeredSession "s1" "10.0.0.5:4444" 0 []) (by decide)).2.2.2.1⟩

theorem dropTerminated_of_none (l : List (String × ShellSession))
    (h : anyTerminated l = false) : dropTerminated l = l := by
  induction l with
  | nil => rfl
  | cons p rest ih =>
    by_cases hp : p.2.state = ShellState.Terminated
    · simp [anyTerminated, hp] at h
    · have h' : anyTerminated rest = false := by simpa [anyTerminated, hp] using h
      simp [dropTerminated, hp, ih h']

/-- C8 counterexample: backgrounding a session mutates the registry but
    does not rewrite the snapshot file — after `background_session` the
    file still holds the record written at registration (state
    `"Active"`), not the current records (state `"Background"`); and the
    records carry the address under the serialized field name
    `remote_addr`, not `remote_address`. -/
theorem c8_counterexample :
    (background_session c8Manager0 "s1").1 = Except.ok () ∧
    c8Manager1.saved_file ≠ some (currentRecords c8Manager1) ∧
    "remote_address" ∉ sessionInfoKeys := by
  refine ⟨rfl, by decide, by decide⟩

/-- C8 (amended): the snapshot file is rewritten — one record per mapped
    session, with the field names id / remote_addr / state /
    connected_at / hostname / username / privilege — after
    `register_session`, after a successful `terminate_session`, and
    after any cleanup sweep that removed at least one session; a cleanup
    that removes nothing, a `background_session` and a
    `foreground_session` leave the file untouched. -/
theorem c8_snapshot_rewrites :
    (∀ (m : ShellSessionManager) (id addr : String) (now : Nat)
        (probe : List String),
        (register_session m id addr now probe).1.saved_file =
          some (currentRecords (register_session m id addr now probe).1)) ∧
    (∀ (m : ShellSessionManager) (id : String) (s : ShellSession),
        lookupSession m id = some s →
        (terminate_session m id).2.saved_file =
          some (currentRecords (terminate_session m id).2) ∧
        (background_session m id).2.saved_file = m.saved_file ∧
        (foreground_session m id).2.saved_file = m.saved_file) ∧
    (∀ m : ShellSessionManager, anyTerminated m.sessions = true →
        (cleanup_terminated_sessions m).saved_file =
          some (currentRecords (cleanup_terminated_sessions m))) ∧
    (∀ m : ShellSessionManager, anyTerminated m.sessions = false →
        cleanup_terminated_sessions m = m) ∧
    sessionInfoKeys =
      ["id", "remote_addr", "state", "connected_at", "hostname", "username",
        "privilege"] := by
  refine ⟨fun _ _ _ _ _ => rfl, ?_, ?_, ?_, rfl⟩
  · intro m id s h
    have h' : lookupIn m.sessions id = some s := h
    refine ⟨?_, ?_, ?_⟩
    · have hx : (terminate_session m id).2 =
          save_sessions_to_file
            { m with
                sessions := removeSession m.sessions id
                active_session :=
                  if m.active_session = some id then none
                  else m.active_session } := by
        simp [terminate_session, lookupSession, h']
      rw [hx]; rfl
    · have hx : (background_session m id).2 =
          { m with
              sessions := updateSession m.sessions id
                (fun s => { s with state := ShellState.Background })
              active_session :=
                if m.active_session = some id then none
                else m.active_session } := by
        simp [background_session, lookupSession, h']
      rw [hx]
    · have hx : (foreground_session m id).2 =
          { m with
              sessions := updateSession m.sessions id
                (fun s => { s with state := ShellState.Active })
              active_session := some id } := by
        simp [foreground_session, lookupSession, h']
      rw [hx]
  · intro m hterm
    have hx : cleanup_terminated_sessions m =
        save_sessions_to_file { m with sessions := dropTerminated m.sessions } := by
      simp [cleanup_terminated_sessions, hterm]
    rw [hx]; rfl
  · intro m hterm
    have hx : cleanup_terminated_sessions m =
        { m with sessions := dropTerminated m.sessions } := by
      simp [cleanup_terminated_sessions, hterm]
    rw [hx, dropTerminated_of_none _ hterm]

/-- C8 witness: at the concrete one-session registry, backgrounding
    leaves the snapshot file exactly as registration wrote it. -/
theorem c8_snapshot_rewrites_witness :
    lookupSession c8Manager0 "s1" =
      some (registeredSession "s1" "10.0.0.5:4444" 0 []) ∧
    (background_session c8Manager0 "s1").2.saved_file = c8Manager0.saved_file :=
  ⟨by decide,
   (c8_snapshot_rewrites.2.1 c8Manager0 "s1"
     (registeredSession "s1" "10.0.0.5:4444" 0 []) (by decide)).2.1⟩

theorem parseOs_linux (output : String) (meta : ShellMetadata)
    (h : strContains output "Linux" = true) :
    (parseOs output meta).os_type = some "Linux" := by
  simp [parseOs, h]

theorem parseHostname_os (output : String) (meta : ShellMetadata) :
    (parseHostname output meta).os_type = meta.os_type := by
  unfold parseHostname
  cases (rustLines output).find? hostnameLineOk <;> rfl

theorem parseUsername_os (output : String) (meta : ShellMetadata) :
    (parseUsername output meta).os_type = meta.os_type := by
  unfold parseUsername
  cases (rustLines output).find?
      (fun line => usernameWindowsLineOk line || usernamePlainLineOk line) with
  | none => rfl
  | some line =>
    by_cases h : usernameWindowsLineOk line = true
    · simp [h]
    · simp [h]

theorem parsePrivilege_os (output : String) (meta : ShellMetadata) :
    (parsePrivilege output meta).os_type = meta.os_type := by
  unfold parsePrivilege
  split_ifs <;> rfl

theorem parsePrivilege_root (output : String) (meta : ShellMetadata)
    (h : strContains output "root@" = true) :
    (parsePrivilege output meta).privilege = PrivilegeLevel.Root := by
  simp [parsePrivilege, h]

/-- C9 counterexample: the claim quantifies over every captured output
    whose lines include the three markers, but the hostname heuristic
    takes the first qualifying line: for the output
    `abc\nLinux version 5.15.0-generic\nmyhost\nroot@myhost:~# ` (whose
    lines do include all three markers) the parsed hostname is `abc`,
    not `myhost`. -/
theorem c9_counterexample :
    ((rustLines c9BadOutput).any (fun l => strContains l "Linux version")) = true ∧
    "myhost" ∈ rustLines c9BadOutput ∧
    "root@myhost:~# " ∈ rustLines c9BadOutput ∧
    (stabilizeUpdateMetadata c9BadOutput
      (ShellSession.new "s1" "10.0.0.5:4444" 0).metadata).hostname = some "abc" ∧
    (some "abc" : Option String) ≠ some "myhost" := by
  refine ⟨by decide, by decide, by decide, by decide, by decide⟩

/-- C9 (amended): on the spec's exact test vector — output consisting of
    the lines `Linux version 5.15.0-generic`, `myhost`,
    `root@myhost:~# ` with no earlier line passing the hostname
    heuristic — stabilization yields os_type `Linux`, hostname `myhost`
    and privilege `Root`, and the output buffer is empty afterwards; in
    general any output containing `Linux` yields os_type `Linux`, any
    output containing `root@` yields privilege `Root`, and stabilization
    always clears the output buffer. -/
theorem c9_stabilize_parse :
    ((stabilize_shell c9VectorSession 1).metadata.os_type = some "Linux" ∧
     (stabilize_shell c9VectorSession 1).metadata.hostname = some "myhost" ∧
     (stabilize_shell c9VectorSession 1).metadata.privilege = PrivilegeLevel.Root ∧
     (stabilize_shell c9VectorSession 1).output_buffer = []) ∧
    (∀ (output : String) (meta : ShellMetadata),
        strContains output "Linux" = true →
        (stabilizeUpdateMetadata output meta).os_type = some "Linux") ∧
    (∀ (output : String) (meta : ShellMetadata),
        strContains output "root@" = true →
        (stabilizeUpdateMetadata output meta).privilege = PrivilegeLevel.Root) ∧
    (∀ (s : ShellSession) (now : Nat), (stabilize_shell s now).output_buffer = []) := by
  refine ⟨⟨by decide, by decide, by decide, by decide⟩, ?_, ?_, fun _ _ => rfl⟩
  · intro output meta h
    unfold stabilizeUpdateMetadata
    rw [parsePrivilege_os, parseUsername_os, parseHostname_os, parseOs_linux _ _ h]
  · intro output meta h
    unfold stabilizeUpdateMetadata
    rw [parsePrivilege_root _ _ h]

/-- C9 witness: the general os-detection part applied to a concrete
    output containing the `Linux` marker. -/
theorem c9_stabilize_parse_witness :
    strContains "Linux localhost 5.15" "Linux" = true ∧
    (stabilizeUpdateMetadata "Linux localhost 5.15"
      (ShellSession.new "w" "10.0.0.5:4444" 0).metadata).os_type = some "Linux" :=
  ⟨by decide, c9_stabilize_parse.2.1 _ _ (by decide)⟩

theorem OutputBuffer_foldl_max (ws : List String) (b : OutputBuffer) :
    (ws.foldl OutputBuffer.push b).max_size = b.max_size := by
  induction ws generalizing b with
  | nil => rfl
  | cons w rest ih =>
    rw [List.foldl_cons, ih]
    rfl

theorem OutputBuffer_foldl_buffer (n : Nat) (hn : 1 ≤ n) (ws : List String) :
    (ws.foldl OutputBuffer.push (OutputBuffer.new n)).buffer =
      ws.drop (ws.length - n) := by
  induction ws using List.reverseRecOn with
  | nil => simp [OutputBuffer.new]
  | append_singleton ws w ih =>
    rw [List.foldl_append, List.foldl_cons, List.foldl_nil]
    have hmax : (ws.foldl OutputBuffer.push (OutputBuffer.new n)).max_size = n :=
      OutputBuffer_foldl_max ws (OutputBuffer.new n)
    have hlen : (ws.foldl OutputBuffer.push (OutputBuffer.new n)).buffer.length =
        ws.length - (ws.length - n) := by
      rw [ih, List.length_drop]
    by_cases hcase : ws.length < n
    · have hdrop : ws.length - n = 0 := Nat.sub_eq_zero_of_le (Nat.le_of_lt hcase)
      have hfull : ¬ (ws.foldl OutputBuffer.push (OutputBuffer.new n)).max_size ≤
          (ws.foldl OutputBuffer.push (OutputBuffer.new n)).buffer.length := by
        rw [hmax, hlen, hdrop, Nat.sub_zero]
        exact Nat.not_le_of_lt hcase
      rw [OutputBuffer.push, if_neg hfull]
      have hdrop2 : (ws ++ [w]).length - n = 0 :=
        Nat.sub_eq_zero_of_le (by simpa using Nat.succ_le_of_lt hcase)
      rw [hdrop2, List.drop_zero, ih, hdrop, List.drop_zero]
    · have hge : n ≤ ws.length := Nat.le_of_not_lt hcase
      have hfull : (ws.foldl OutputBuffer.push (OutputBuffer.new n)).max_size ≤
          (ws.foldl OutputBuffer.push (OutputBuffer.new n)).buffer.length := by
        rw [hmax, hlen, Nat.sub_sub_self hge]
      rw [OutputBuffer.push, if_pos hfull, ih]
      have harith : (ws ++ [w]).length - n = (ws.length - n) + 1 := by
        rw [List.length_append, List.length_singleton]
        omega
      rw [harith]
      have hsplit : (ws ++ [w]).drop ((ws.length - n) + 1) =
          ws.drop ((ws.length - n) + 1) ++ [w] :=
        List.drop_append_of_le_length (by omega)
      rw [hsplit, List.drop_drop]

/-- C10: starting from `OutputBuffer::new(max_size)` with `max_size ≥ 1`,
    any sequence of pushes leaves the buffer holding exactly the most
    recent at-most-`max_size` pushed chunks in insertion order (a full
    buffer drops its oldest entry before appending), so it never exceeds
    `max_size` entries; `flush_to_stdout` emits the held chunks in order
    and leaves the buffer empty. -/
theorem c10_output_buffer_bound (n : Nat) (ws : List String) (hn : 1 ≤ n) :
    (ws.foldl OutputBuffer.push (OutputBuffer.new n)).buffer =
      ws.drop (ws.length - n) ∧
    (ws.foldl OutputBuffer.push (OutputBuffer.new n)).buffer.length ≤ n ∧
    ((ws.foldl OutputBuffer.push (OutputBuffer.new n)).flush_to_stdout).1 =
      (ws.foldl OutputBuffer.push (OutputBuffer.new n)).buffer ∧
    ((ws.foldl OutputBuffer.push (OutputBuffer.new n)).flush_to_stdout).2.buffer =
      [] := by
  refine ⟨OutputBuffer_foldl_buffer n hn ws, ?_, rfl, rfl⟩
  rw [OutputBuffer_foldl_buffer n hn ws, List.length_drop]
  omega

/-- C10 witness: four pushes into a buffer of capacity 2 keep exactly the
    last two chunks. -/
theorem c10_output_buffer_bound_witness :
    1 ≤ 2 ∧
    (["a", "b", "c", "d"].foldl OutputBuffer.push (OutputBuffer.new 2)).buffer =
      ["a", "b", "c", "d"].drop (["a", "b", "c", "d"].length - 2) :=
  ⟨by decide, (c10_output_buffer_bound 2 ["a", "b", "c", "d"] (by decide)).1⟩

end Cap
